import Mathlib

/-
Verification development for the trading-signal core of this repository:
the message parser (parser.py, class MessageParser) and the level
calculator (calculator.py, class LevelCalculator).

Modelling conventions:
- Python strings are embedded as lists of characters (abbrev Str), so that
  every operation is a computable structural function the kernel can
  evaluate. Literals are written as string-literal .data.
- Python float arithmetic is embedded as exact rational arithmetic.
- Python dicts built by repeated assignment are embedded as association
  lists with in-place overwrite (dictSet), matching dict semantics:
  an existing key keeps its position and gets the new value, a new key is
  appended. Key order therefore matches insertion order, as in Python.
- str.upper, str.strip, the regex character class of word characters and
  the whitespace class are modelled for ASCII text (plus the two direction
  emoji glyphs handled explicitly by the source regex).
- parse returns Except ParseError ParsedSignal: the source returns the
  pair (None, message-string) on failure; each ParseError constructor
  carries exactly the data interpolated into the corresponding f-string of
  the source, and errorMessage renders the exact source message text.
- calculate returns Except PyExn TradingLevels: the source either returns
  a TradingLevels or raises (KeyError on a missing dict key; AttributeError
  when the timeframe argument equals the aliases key, since the chained
  lookup then succeeds and returns the aliases list, and reading the unit
  from that list with a dict method fails); Except.error models a RAISED
  exception unwinding to the caller, since the source has no error-return
  channel in the calculator.
-/

namespace TradingBot

abbrev Str := List Char

/-- Python str.upper on ASCII text: uppercase every character. -/
def pyUpper (l : Str) : Str := l.map Char.toUpper

/-- Python str.strip: drop leading and trailing whitespace. -/
def pyStrip (l : Str) : Str :=
  ((l.dropWhile Char.isWhitespace).reverse.dropWhile Char.isWhitespace).reverse

/-- Python str.split with no argument: split on whitespace runs, dropping
empty pieces. -/
def splitWs (l : Str) : List Str :=
  (l.splitOnP Char.isWhitespace).filter (fun w => w ≠ [])

/-- Membership in the regex word class for ASCII text: letters, digits and
underscore. -/
def isWordChar (c : Char) : Bool := c.isAlphanum || c = '_'

/-- Token cleaning used by direction extraction (parser.py line 130):
remove every character outside the word class except the two direction
emoji glyphs. -/
def cleanDir (w : Str) : Str :=
  w.filter (fun c => isWordChar c || c = '🟢' || c = '🔴')

/-- Token cleaning used by asset and timeframe extraction (parser.py
lines 142 and 168): remove every character outside the word class. -/
def cleanWord (w : Str) : Str := w.filter isWordChar

/-- Association-list embedding of a Python dict from strings to strings. -/
abbrev PyDict := List (Str × Str)

/-- Python dict assignment d[k] = v: overwrite in place if the key
exists (keeping its position), otherwise append the new pair. -/
def dictSet (d : PyDict) (k v : Str) : PyDict :=
  if d.any (fun p => p.1 = k) then
    d.map (fun p => if p.1 = k then (k, v) else p)
  else d ++ [(k, v)]

/-- Python dict lookup: the value stored at the key, if present. -/
def dictGet (d : PyDict) (k : Str) : Option Str :=
  (d.find? (fun p => p.1 = k)).map (fun p => p.2)

/-- Python dict key view, in insertion order. -/
def dictKeys (d : PyDict) : List Str := d.map (fun p => p.1)

/-- Rule row of rules.json for one (asset, timeframe): the four distances
and the optional unit string (calculator.py lines 102-109 read these via
rules.get for unit and direct indexing for the distances). -/
structure LevelRule where
  tp1 : ℚ
  tp2 : ℚ
  tp3 : ℚ
  sl : ℚ
  unit : Option Str
deriving Repr, DecidableEq

/-- Per-asset entry of the rules.json assets table: the optional aliases
list and the timeframe rule rows, in document order. -/
structure AssetData where
  aliases : Option (List Str)
  tfRules : List (Str × LevelRule)
deriving Repr, DecidableEq

/-- The rules.json configuration consumed by both MessageParser and
LevelCalculator: direction aliases, timeframe aliases and assets. -/
structure Config where
  directions : List (Str × List Str)
  tfAliases : List (Str × Str)
  assets : List (Str × AssetData)
deriving Repr, DecidableEq

/-- Direction lookup table (parser.py lines 60-63): for each direction and
each alias, store alias.upper() mapped to the direction. -/
def buildDirectionLookup (cfg : Config) : PyDict :=
  cfg.directions.foldl
    (fun d p => p.2.foldl (fun d2 al => dictSet d2 (pyUpper al) p.1) d) []

/-- One step of the asset lookup construction (parser.py lines 67-71):
register the canonical asset name and then each alias, all uppercased,
mapping to the canonical name. -/
def registerAsset (d : PyDict) (p : Str × AssetData) : PyDict :=
  let d1 := dictSet d (pyUpper p.1) p.1
  match p.2.aliases with
  | some als => als.foldl (fun d2 al => dictSet d2 (pyUpper al) p.1) d1
  | none => d1

/-- Asset lookup table (parser.py lines 66-71). -/
def buildAssetLookup (cfg : Config) : PyDict :=
  cfg.assets.foldl registerAsset []

/-- Timeframe lookup table (parser.py lines 74-76). -/
def buildTfLookup (cfg : Config) : PyDict :=
  cfg.tfAliases.foldl (fun d p => dictSet d (pyUpper p.1) p.2) []

/-- Direction extraction (parser.py lines 124-134): among the first three
whitespace tokens, return the table value of the first cleaned token that
is a key of the direction lookup. -/
def extractDirection (cfg : Config) (message : Str) : Option Str :=
  ((splitWs message).take 3).findSome?
    (fun w => dictGet (buildDirectionLookup cfg) (cleanDir w))

/-- Decide whether the first list is a leading segment of the second. -/
def startsWithL : Str → Str → Bool
  | [], _ => true
  | _ :: _, [] => false
  | a :: as, b :: bs => a = b && startsWithL as bs

/-- Python substring containment, needle in haystack. -/
def containsSub (needle : Str) : Str → Bool
  | [] => startsWithL needle []
  | c :: rest => startsWithL needle (c :: rest) || containsSub needle rest

/-- Stable insertion keeping the list ordered by non-increasing length:
the new element goes in front of the first element that is not longer,
hence after all strictly longer ones and before equal-length ones that
were inserted later. -/
def insertByLen (x : Str) : List Str → List Str
  | [] => [x]
  | y :: ys => if y.length ≤ x.length then x :: y :: ys else y :: insertByLen x ys

/-- Python sorted(keys, key=len, reverse=True): stable sort by
non-increasing length, as an insertion sort. -/
def sortByLenDesc (l : List Str) : List Str := l.foldr insertByLen []

/-- Asset extraction (parser.py lines 136-151): first pass over the
whitespace tokens of the message with the at sign treated as a separator,
matching cleaned tokens exactly; then a fallback substring scan of the
whole message against every known alias, longest aliases first. -/
def extractAsset (cfg : Config) (message : Str) : Option Str :=
  let lookup := buildAssetLookup cfg
  let words := splitWs (message.map (fun c => if c = '@' then ' ' else c))
  match words.findSome? (fun w => dictGet lookup (cleanWord w)) with
  | some a => some a
  | none =>
    (sortByLenDesc (dictKeys lookup)).findSome?
      (fun al => if containsSub al message then dictGet lookup al else none)

/-- Membership of a character in the letter set of the timeframe regex. -/
def isMHD (c : Char) : Bool := c = 'M' || c = 'H' || c = 'D'

/-- End-of-match word-boundary test: the regex boundary holds after the
match when the remaining text is empty or starts with a non-word
character. -/
def endBoundary : Str → Bool
  | [] => true
  | c :: _ => !isWordChar c

/-- First alternative of the timeframe regex, a letter M, H or D followed
by one or more digits, with the trailing word boundary. -/
def matchA1 : Str → Option (Str × Str)
  | [] => none
  | c :: rest =>
    if isMHD c then
      let ds := rest.takeWhile Char.isDigit
      if ds = [] then none
      else if endBoundary (rest.dropWhile Char.isDigit) then
        some (c :: ds, rest.dropWhile Char.isDigit)
      else none
    else none

/-- Second alternative, one or more digits followed by a letter M, H or D,
with the trailing word boundary. The digit run is maximal: shortening it
would put a digit where the letter is required. -/
def matchA2 (l : Str) : Option (Str × Str) :=
  let ds := l.takeWhile Char.isDigit
  if ds = [] then none
  else
    match l.dropWhile Char.isDigit with
    | c :: rest => if isMHD c && endBoundary rest then some (ds ++ [c], rest) else none
    | [] => none

/-- Third alternative, digits then MI with an optional N. When the N is
present, dropping it cannot help, since the boundary test would then see
the word character N; so the greedy form is the only candidate. -/
def matchA3 (l : Str) : Option (Str × Str) :=
  let ds := l.takeWhile Char.isDigit
  if ds = [] then none
  else
    match l.dropWhile Char.isDigit with
    | 'M' :: 'I' :: 'N' :: rest =>
      if endBoundary rest then some (ds ++ ['M', 'I', 'N'], rest) else none
    | 'M' :: 'I' :: rest =>
      if endBoundary rest then some (ds ++ ['M', 'I'], rest) else none
    | _ => none

/-- Fourth alternative, a bare digit run with the trailing boundary. -/
def matchA4 (l : Str) : Option (Str × Str) :=
  let ds := l.takeWhile Char.isDigit
  if ds = [] then none
  else if endBoundary (l.dropWhile Char.isDigit) then
    some (ds, l.dropWhile Char.isDigit)
  else none

/-- Try the four alternatives of the timeframe regex in source order at
the current position. -/
def tfTryMatch (l : Str) : Option (Str × Str) :=
  match matchA1 l with
  | some r => some r
  | none =>
    match matchA2 l with
    | some r => some r
    | none =>
      match matchA3 l with
      | some r => some r
      | none => matchA4 l

/-- Fuelled scan implementing re.findall for the timeframe pattern of
parser.py line 157: walk the text left to right tracking whether the
previous character was a word character; where a word boundary precedes a
word character, try the alternatives, emit the match and resume after it.
Every successful match consumes at least one character, so fuel equal to
the text length always suffices. -/
def tfFindAllFuel : Nat → Str → Bool → List Str
  | 0, _, _ => []
  | _ + 1, [], _ => []
  | fuel + 1, c :: rest, prevWord =>
    if prevWord then tfFindAllFuel fuel rest (isWordChar c)
    else
      match tfTryMatch (c :: rest) with
      | some (m, r) => m :: tfFindAllFuel fuel r true
      | none => tfFindAllFuel fuel rest (isWordChar c)

/-- All matches of the timeframe pattern, in order of appearance. -/
def tfFindAll (l : Str) : List Str := tfFindAllFuel l.length l false

/-- Timeframe extraction (parser.py lines 153-172): first each regex
match, uppercased, is looked up in the timeframe table; if none hits, each
cleaned uppercased whitespace token is looked up directly. -/
def extractTimeframe (cfg : Config) (message : Str) : Option Str :=
  let tfl := buildTfLookup cfg
  match (tfFindAll message).findSome? (fun m => dictGet tfl (pyUpper m)) with
  | some tf => some tf
  | none => (splitWs message).findSome? (fun w => dictGet tfl (pyUpper (cleanWord w)))

/-- Membership of a character in the price literal class of the regex at
parser.py line 176: digits, dot and comma. -/
def isPriceChar (c : Char) : Bool := c.isDigit || c = '.' || c = ','

/-- Leftmost match of the price regex: scan for an at sign followed by
optional whitespace and then a non-empty run of price characters; an at
sign not followed by such a run is skipped, as the regex engine moves on. -/
def findPriceLiteral : Str → Option Str
  | [] => none
  | c :: rest =>
    if c = '@' then
      let lit := (rest.dropWhile Char.isWhitespace).takeWhile isPriceChar
      if lit = [] then findPriceLiteral rest else some lit
    else findPriceLiteral rest

/-- Value of a digit run read in base ten. -/
def digitsToNat (l : Str) : Nat :=
  l.foldl (fun n c => 10 * n + (c.toNat - '0'.toNat)) 0

/-- Python float applied to a price literal after commas are removed
(parser.py lines 180-181): the remaining text, drawn from digits, dots and
commas, parses exactly when it has at least one digit and at most one dot;
the value is the integer part plus the scaled fraction part. The model is
exact rational arithmetic in place of binary floating point. -/
def pyFloat (s : Str) : Option ℚ :=
  let t := s.filter (fun c => c ≠ ',')
  if t.any Char.isDigit = true ∧ t.all (fun c => c.isDigit || c = '.') = true ∧
      t.count '.' ≤ 1 then
    let ip := t.takeWhile (fun c => c ≠ '.')
    let fp := (t.dropWhile (fun c => c ≠ '.')).drop 1
    some ((digitsToNat ip : ℚ) + (digitsToNat fp : ℚ) / (10 : ℚ) ^ fp.length)
  else none

/-- Optional price extraction (parser.py lines 174-184): parse the first
price literal if there is one; a literal that fails to parse yields no
price, exactly like a missing marker. -/
def extractPrice (message : Str) : Option ℚ :=
  match findPriceLiteral message with
  | some lit => pyFloat lit
  | none => none

/-- Failure cases of parse, one constructor per distinct return site of
parser.py lines 93-108, each carrying exactly the data interpolated into
the message string of that site. -/
inductive ParseError where
  | noDirection : ParseError
  | noAsset : ParseError
  | noTimeframe : ParseError
  | unsupportedTimeframe (tf : Str) (asset : Str) (available : List Str) : ParseError
deriving Repr, DecidableEq

/-- Successfully parsed signal (parser.py dataclass ParsedSignal); the
wall-clock timestamp field is not modelled. -/
structure ParsedSignal where
  direction : Str
  asset : Str
  timeframe : Str
  originalMessage : Str
  entryPrice : Option ℚ
deriving Repr, DecidableEq

/-- Comma-space join used by the f-strings of parser.py. -/
def joinCommaSpace (l : List Str) : Str := List.intercalate (", ".data) l

/-- Exact message text of each failure return of parse. -/
def errorMessage (cfg : Config) : ParseError → Str
  | .noDirection => "❌ Direction not found. Use: LONG/SHORT/BUY/SELL".data
  | .noAsset =>
    "❌ Asset not recognized. Available: ".data ++
      joinCommaSpace (cfg.assets.map (fun p => p.1))
  | .noTimeframe => "❌ Timeframe not found. Use: M1/M5/M15/H1/H4".data
  | .unsupportedTimeframe tf asset available =>
    "❌ TF ".data ++ tf ++ " not configured for ".data ++ asset ++
      ". Available: ".data ++ joinCommaSpace available

/-- Lookup of the raw per-asset table entry. -/
def assetDataOf (cfg : Config) (asset : Str) : Option AssetData :=
  (cfg.assets.find? (fun p => p.1 = asset)).map (fun p => p.2)

/-- Membership test of parser.py line 106 on the per-asset JSON object:
its keys are the aliases key, when present, and the timeframe rule keys. -/
def assetHasKey (a : AssetData) (k : Str) : Bool :=
  (a.aliases.isSome && k = "aliases".data) || a.tfRules.any (fun p => p.1 = k)

/-- Available timeframes of an asset (parser.py line 107): every key of
the per-asset object except the aliases key. -/
def availableTfs (a : AssetData) : List Str :=
  (a.tfRules.map (fun p => p.1)).filter (fun k => k ≠ "aliases".data)

/-- The parse pipeline (parser.py lines 78-122): strip and uppercase, then
extract direction, asset, timeframe, validate the timeframe against the
asset, and finally extract the optional price. The falsiness tests of the
source treat an empty string like a missing value, hence the emptiness
guards. -/
def parse (cfg : Config) (message : Str) : Except ParseError ParsedSignal :=
  let msg := pyUpper (pyStrip message)
  match extractDirection cfg msg with
  | none => .error .noDirection
  | some direction =>
    if direction = [] then .error .noDirection
    else
      match extractAsset cfg msg with
      | none => .error .noAsset
      | some asset =>
        if asset = [] then .error .noAsset
        else
          match extractTimeframe cfg msg with
          | none => .error .noTimeframe
          | some timeframe =>
            if timeframe = [] then .error .noTimeframe
            else
              let adata := (assetDataOf cfg asset).getD { aliases := none, tfRules := [] }
              if assetHasKey adata timeframe then
                .ok { direction := direction, asset := asset, timeframe := timeframe,
                      originalMessage := message, entryPrice := extractPrice msg }
              else
                .error (.unsupportedTimeframe timeframe asset (availableTfs adata))

/-- PIP_VALUES.get(asset, 0.0001) of calculator.py lines 57-64. -/
def pipValueOf (asset : Str) : ℚ :=
  if asset = "EURUSD".data then 1 / 10000
  else if asset = "GBPUSD".data then 1 / 10000
  else if asset = "USDJPY".data then 1 / 100
  else if asset = "AUDUSD".data then 1 / 10000
  else if asset = "USDCAD".data then 1 / 10000
  else if asset = "USDCHF".data then 1 / 10000
  else 1 / 10000

/-- POINT_VALUES.get(asset, 1.0) of calculator.py lines 67-71. -/
def pointValueOf (asset : Str) : ℚ :=
  if asset = "US30".data then 1
  else if asset = "NAS100".data then 1
  else if asset = "SPX500".data then 1 / 10
  else 1

/-- Percentage level computation (calculator.py lines 151-166), returning
the tuple tp1, tp2, tp3, sl. Every non-LONG direction takes the SHORT
branch, as in the source else branch. -/
def calcPercentage (direction : Str) (entry tp1p tp2p tp3p slp : ℚ) :
    ℚ × ℚ × ℚ × ℚ :=
  if direction = "LONG".data then
    (entry * (1 + tp1p / 100), entry * (1 + tp2p / 100),
     entry * (1 + tp3p / 100), entry * (1 - slp / 100))
  else
    (entry * (1 - tp1p / 100), entry * (1 - tp2p / 100),
     entry * (1 - tp3p / 100), entry * (1 + slp / 100))

/-- Pip level computation (calculator.py lines 168-183). -/
def calcPips (direction : Str) (entry pipValue tp1p tp2p tp3p slp : ℚ) :
    ℚ × ℚ × ℚ × ℚ :=
  if direction = "LONG".data then
    (entry + tp1p * pipValue, entry + tp2p * pipValue,
     entry + tp3p * pipValue, entry - slp * pipValue)
  else
    (entry - tp1p * pipValue, entry - tp2p * pipValue,
     entry - tp3p * pipValue, entry + slp * pipValue)

/-- Point level computation (calculator.py lines 185-200). -/
def calcPoints (direction : Str) (entry pointValue tp1p tp2p tp3p slp : ℚ) :
    ℚ × ℚ × ℚ × ℚ :=
  if direction = "LONG".data then
    (entry + tp1p * pointValue, entry + tp2p * pointValue,
     entry + tp3p * pointValue, entry - slp * pointValue)
  else
    (entry - tp1p * pointValue, entry - tp2p * pointValue,
     entry - tp3p * pointValue, entry + slp * pointValue)

/-- Round half to even on exact rationals, the tie rule of Python round. -/
def rndHalfEven (x : ℚ) : ℤ :=
  if x - ⌊x⌋ < 1 / 2 then ⌊x⌋
  else if 1 / 2 < x - ⌊x⌋ then ⌊x⌋ + 1
  else if ⌊x⌋ % 2 = 0 then ⌊x⌋ else ⌊x⌋ + 1

/-- Python round(x, 2) modelled on exact rationals. -/
def round2 (x : ℚ) : ℚ := (rndHalfEven (x * 100) : ℚ) / 100

/-- Result record of the calculator (calculator.py dataclass
TradingLevels). -/
structure TradingLevels where
  direction : Str
  asset : Str
  timeframe : Str
  entry : ℚ
  tp1 : ℚ
  tp2 : ℚ
  tp3 : ℚ
  sl : ℚ
  tp1_distance : ℚ
  tp2_distance : ℚ
  tp3_distance : ℚ
  sl_distance : ℚ
  unit : Str
  rr_ratio : ℚ
deriving Repr, DecidableEq

/-- Exceptions the calculator can raise: KeyError on a missing dict key;
AttributeError on the corner where the timeframe argument equals the aliases
key, because the lookup of calculator.py line 102 then returns the aliases
list and line 103 calls a dict method on it. -/
inductive PyExn where
  | keyError (key : Str) : PyExn
  | attributeError : PyExn
deriving Repr, DecidableEq

deriving instance DecidableEq for Except

/-- Body of calculate after the rule row has been fetched (calculator.py
lines 103-149): read the unit with default percent, dispatch on it, and
derive the risk-reward ratio with the zero guard on the stop distance. -/
def computeLevels (direction asset timeframe : Str) (entry : ℚ)
    (rules : LevelRule) : TradingLevels :=
  let unit := rules.unit.getD ("%".data)
  let levels :=
    if unit = "pips".data then
      calcPips direction entry (pipValueOf asset) rules.tp1 rules.tp2 rules.tp3 rules.sl
    else if unit = "points".data then
      calcPoints direction entry (pointValueOf asset) rules.tp1 rules.tp2 rules.tp3 rules.sl
    else
      calcPercentage direction entry rules.tp1 rules.tp2 rules.tp3 rules.sl
  let avgTp := (rules.tp1 + rules.tp2 + rules.tp3) / 3
  let rr := if rules.sl > 0 then round2 (avgTp / rules.sl) else 0
  { direction := direction, asset := asset, timeframe := timeframe, entry := entry,
    tp1 := levels.1, tp2 := levels.2.1, tp3 := levels.2.2.1, sl := levels.2.2.2,
    tp1_distance := rules.tp1, tp2_distance := rules.tp2, tp3_distance := rules.tp3,
    sl_distance := rules.sl, unit := unit, rr_ratio := rr }

/-- The rule row the chained indexing of calculator.py line 102 would
fetch, when it exists: none models a raised exception instead. The aliases
guard mirrors the case where the timeframe key hits the aliases list. -/
def ruleRow (cfg : Config) (asset timeframe : Str) : Option LevelRule :=
  match (cfg.assets.find? (fun p => p.1 = asset)).map (fun p => p.2) with
  | none => none
  | some adata =>
    if adata.aliases.isSome ∧ timeframe = "aliases".data then none
    else (adata.tfRules.find? (fun p => p.1 = timeframe)).map (fun p => p.2)

/-- The calculate entry point (calculator.py lines 85-149): fetch the rule
row by chained dict indexing, raising KeyError on a missing asset or
timeframe key (on the corner where the timeframe names the aliases key the
lookup itself succeeds, yielding the aliases list, and the unit read of line
103 raises AttributeError), then compute the levels. -/
def calculate (cfg : Config) (direction asset timeframe : Str) (entry : ℚ) :
    Except PyExn TradingLevels :=
  match (cfg.assets.find? (fun p => p.1 = asset)).map (fun p => p.2) with
  | none => .error (.keyError asset)
  | some adata =>
    if adata.aliases.isSome ∧ timeframe = "aliases".data then .error .attributeError
    else
      match (adata.tfRules.find? (fun p => p.1 = timeframe)).map (fun p => p.2) with
      | none => .error (.keyError timeframe)
      | some rules => .ok (computeLevels direction asset timeframe entry rules)

/-- Delta of the claimed sign-convention law: the absolute price offset a
distance produces under each unit, following the wording of the
specification. -/
def specDelta (unit : Str) (asset : Str) (entry dist : ℚ) : ℚ :=
  if unit = "pips".data then dist * pipValueOf asset
  else if unit = "points".data then dist * pointValueOf asset
  else entry * dist / 100

/-- Registration test of the specification on one asset entry: the token
is the uppercased canonical name or an uppercased alias. -/
def assetRegisters (p : Str × AssetData) (tok : Str) : Bool :=
  pyUpper p.1 = tok ||
    (match p.2.aliases with
     | some als => als.any (fun al => pyUpper al = tok)
     | none => false)

/-- Configuration predicate of the specification: some alias token is
registered by two different assets. -/
def hasDuplicateAssetAlias (cfg : Config) : Bool :=
  cfg.assets.any (fun p =>
    cfg.assets.any (fun q =>
      p.1 ≠ q.1 &&
        (match p.2.aliases with
         | some als => als.any (fun al => assetRegisters q (pyUpper al))
         | none => false)))

/-- Configuration predicate of the specification: some rule row has a
negative distance. -/
def hasNegativeDistance (cfg : Config) : Bool :=
  cfg.assets.any (fun p =>
    p.2.tfRules.any (fun r =>
      decide (r.2.tp1 < 0) || decide (r.2.tp2 < 0) ||
        decide (r.2.tp3 < 0) || decide (r.2.sl < 0)))

/-- Configuration predicate of the specification: some rule row declares a
unit string outside the recognized three. -/
def hasUnknownUnit (cfg : Config) : Bool :=
  cfg.assets.any (fun p =>
    p.2.tfRules.any (fun r =>
      match r.2.unit with
      | some u => !(u = "%".data || u = "pips".data || u = "points".data)
      | none => false))

/-- Concrete rule row used by witnesses: one percent, two percent, three
and a half percent, one and a half percent, unit absent. -/
def ruleA : LevelRule := { tp1 := 1, tp2 := 2, tp3 := 7 / 2, sl := 3 / 2, unit := none }

/-- Concrete asset entry used by witnesses. -/
def dataBTC : AssetData :=
  { aliases := some [("BTC".data)], tfRules := [(("M5".data), ruleA)] }

/-- Concrete configuration used by witnesses. -/
def cfgA : Config :=
  { directions := [(("LONG".data), [("LONG".data), ("BUY".data)]),
                   (("SHORT".data), [("SHORT".data), ("SELL".data)])],
    tfAliases := [(("M5".data), ("M5".data)), (("M15".data), ("M15".data)),
                  (("5".data), ("M5".data))],
    assets := [(("BTCUSD".data), dataBTC)] }

/-- Well-formed rule row inside the invalid configuration below. -/
def rule5a : LevelRule := { tp1 := 1, tp2 := 2, tp3 := 3, sl := 1, unit := none }

/-- Rule row with a negative stop distance and an unrecognized unit. -/
def rule5b : LevelRule :=
  { tp1 := 1, tp2 := 2, tp3 := 3, sl := -1, unit := some ("furlongs".data) }

/-- Configuration violating all three load-time conditions of the
specification: the alias BTC is reused across two assets, one stop
distance is negative and one unit string is unrecognized. -/
def cfg5bad : Config :=
  { directions := [(("LONG".data), [("LONG".data)])],
    tfAliases := [(("M5".data), ("M5".data))],
    assets := [(("BTCUSD".data), { aliases := some [("BTC".data)],
                                   tfRules := [(("M5".data), rule5a)] }),
               (("BTCTEST".data), { aliases := some [("BTC".data)],
                                    tfRules := [(("M5".data), rule5b)] })] }

/-- Configuration with an alias pair AB and ABC where one is a proper
substring of the other, plus an unrelated longer alias QQQQ. -/
def cfg7 : Config :=
  { directions := [],
    tfAliases := [],
    assets := [(("X".data), { aliases := some [("AB".data)], tfRules := [] }),
               (("Y".data), { aliases := some [("ABC".data)], tfRules := [] }),
               (("Z".data), { aliases := some [("QQQQ".data)], tfRules := [] })] }

/-- Configuration where the alias GOLD is a proper substring of the alias
GOLDEN and the two belong to different assets. -/
def cfgGold : Config :=
  { directions := [],
    tfAliases := [],
    assets := [(("XAUUSD".data), { aliases := some [("GOLD".data)], tfRules := [] }),
               (("GOLDCOIN".data), { aliases := some [("GOLDEN".data)], tfRules := [] })] }

end TradingBot

namespace TradingBot

lemma calculate_eq_ok (cfg : Config) (d a tf : Str) (e : ℚ) (rule : LevelRule)
    (h : ruleRow cfg a tf = some rule) :
    calculate cfg d a tf e = .ok (computeLevels d a tf e rule) := by
  unfold ruleRow at h
  unfold calculate
  cases hfind : (cfg.assets.find? (fun p => p.1 = a)).map (fun p => p.2) with
  | none =>
    simp only [hfind] at h
    exact Option.noConfusion h
  | some adata =>
    simp only [hfind] at h ⊢
    by_cases hal : adata.aliases.isSome ∧ tf = "aliases".data
    · simp only [if_pos hal] at h
      exact Option.noConfusion h
    · simp only [if_neg hal] at h ⊢
      cases hrow : (adata.tfRules.find? (fun p => p.1 = tf)).map (fun p => p.2) with
      | none =>
        simp only [hrow] at h
        exact Option.noConfusion h
      | some r =>
        simp only [hrow, Option.some.injEq] at h ⊢
        rw [h]

lemma pipValueOf_pos (a : Str) : 0 < pipValueOf a := by
  unfold pipValueOf; split_ifs <;> norm_num

lemma pointValueOf_pos (a : Str) : 0 < pointValueOf a := by
  unfold pointValueOf; split_ifs <;> norm_num

lemma rndHalfEven_nonneg (x : ℚ) (hx : 0 ≤ x) : 0 ≤ rndHalfEven x := by
  unfold rndHalfEven
  have hf : (0 : ℤ) ≤ ⌊x⌋ := Int.floor_nonneg.mpr hx
  split_ifs <;> omega

lemma round2_nonneg (x : ℚ) (hx : 0 ≤ x) : 0 ≤ round2 x := by
  unfold round2
  have h := rndHalfEven_nonneg (x * 100) (by positivity)
  positivity

/-- C1: for every direction in LONG and SHORT, every unit type among percent,
pips and points, every entry price and every rule row, the calculated levels
obey the canonical sign convention: for LONG the take profits are entry plus
delta and the stop is entry minus delta; for SHORT the signs flip; where delta
is entry times distance over 100 for percent, distance times pip size for pips
and distance times point value for points. -/
theorem c1_sign_convention (cfg : Config) (d a tf : Str) (e : ℚ) (rule : LevelRule)
    (hrow : ruleRow cfg a tf = some rule)
    (hdir : d = ("LONG".data) ∨ d = ("SHORT".data))
    (hunit : rule.unit.getD ("%".data) = ("%".data) ∨
             rule.unit.getD ("%".data) = ("pips".data) ∨
             rule.unit.getD ("%".data) = ("points".data)) :
    ∃ lv, calculate cfg d a tf e = Except.ok lv ∧
      (d = ("LONG".data) →
        lv.tp1 = e + specDelta (rule.unit.getD ("%".data)) a e rule.tp1 ∧
        lv.tp2 = e + specDelta (rule.unit.getD ("%".data)) a e rule.tp2 ∧
        lv.tp3 = e + specDelta (rule.unit.getD ("%".data)) a e rule.tp3 ∧
        lv.sl = e - specDelta (rule.unit.getD ("%".data)) a e rule.sl) ∧
      (d = ("SHORT".data) →
        lv.tp1 = e - specDelta (rule.unit.getD ("%".data)) a e rule.tp1 ∧
        lv.tp2 = e - specDelta (rule.unit.getD ("%".data)) a e rule.tp2 ∧
        lv.tp3 = e - specDelta (rule.unit.getD ("%".data)) a e rule.tp3 ∧
        lv.sl = e + specDelta (rule.unit.getD ("%".data)) a e rule.sl) := by
  refine ⟨computeLevels d a tf e rule, calculate_eq_ok cfg d a tf e rule hrow, ?_, ?_⟩ <;>
    intro hd <;> subst hd <;>
    rcases hunit with hu | hu | hu <;>
    simp only [computeLevels, specDelta, hu, calcPercentage, calcPips, calcPoints] <;>
    simp +decide <;>
    refine ⟨by ring, by ring, by ring, by ring⟩

end TradingBot

namespace TradingBot

/-- C3: for every rule row with non-negative distances, calculate returns
normally and its risk reward ratio equals the two-decimal rounding of the mean
take-profit distance over the stop distance when the stop distance is
positive, equals exactly zero when the stop distance is zero, and is always
non-negative; the zero guard means no division error can occur. -/
theorem c3_risk_reward (cfg : Config) (d a tf : Str) (e : ℚ) (rule : LevelRule)
    (hrow : ruleRow cfg a tf = some rule)
    (h1 : 0 ≤ rule.tp1) (h2 : 0 ≤ rule.tp2) (h3 : 0 ≤ rule.tp3) (h4 : 0 ≤ rule.sl) :
    ∃ lv, calculate cfg d a tf e = Except.ok lv ∧
      (0 < rule.sl →
        lv.rr_ratio = round2 (((rule.tp1 + rule.tp2 + rule.tp3) / 3) / rule.sl)) ∧
      (rule.sl = 0 → lv.rr_ratio = 0) ∧
      0 ≤ lv.rr_ratio := by
  refine ⟨computeLevels d a tf e rule, calculate_eq_ok cfg d a tf e rule hrow, ?_, ?_, ?_⟩
  · intro hsl
    simp only [computeLevels]
    rw [if_pos hsl]
  · intro hsl
    simp only [computeLevels]
    rw [if_neg (by simp [hsl])]
  · simp only [computeLevels]
    by_cases hsl : rule.sl > 0
    · rw [if_pos hsl]
      refine round2_nonneg _ (div_nonneg (div_nonneg (by linarith) (by norm_num)) h4)
    · rw [if_neg hsl]

/-- C3 witness: the risk reward property instantiated at a concrete
configuration, LONG BTCUSD M5 at entry 65000. -/
theorem c3_witness :
    ruleRow cfgA ("BTCUSD".data) ("M5".data) = some ruleA ∧
    (0:ℚ) ≤ ruleA.tp1 ∧ (0:ℚ) ≤ ruleA.tp2 ∧ (0:ℚ) ≤ ruleA.tp3 ∧ (0:ℚ) ≤ ruleA.sl ∧
    (∃ lv, calculate cfgA ("LONG".data) ("BTCUSD".data) ("M5".data) 65000 = Except.ok lv ∧
      (0 < ruleA.sl →
        lv.rr_ratio = round2 (((ruleA.tp1 + ruleA.tp2 + ruleA.tp3) / 3) / ruleA.sl)) ∧
      (ruleA.sl = 0 → lv.rr_ratio = 0) ∧
      0 ≤ lv.rr_ratio) :=
  ⟨rfl, by norm_num [ruleA], by norm_num [ruleA], by norm_num [ruleA], by norm_num [ruleA],
   c3_risk_reward cfgA ("LONG".data) ("BTCUSD".data) ("M5".data) 65000 ruleA rfl
     (by norm_num [ruleA]) (by norm_num [ruleA]) (by norm_num [ruleA]) (by norm_num [ruleA])⟩

/-- C4: for every positive entry price and every rule row whose take-profit
distances are non-decreasing, the computed levels satisfy tp1 le tp2 le tp3
for LONG and tp1 ge tp2 ge tp3 for SHORT, under all three unit types. -/
theorem c4_monotonicity (cfg : Config) (d a tf : Str) (e : ℚ) (rule : LevelRule)
    (hrow : ruleRow cfg a tf = some rule)
    (he : 0 < e)
    (h12 : rule.tp1 ≤ rule.tp2) (h23 : rule.tp2 ≤ rule.tp3)
    (hdir : d = ("LONG".data) ∨ d = ("SHORT".data))
    (hunit : rule.unit.getD ("%".data) = ("%".data) ∨
             rule.unit.getD ("%".data) = ("pips".data) ∨
             rule.unit.getD ("%".data) = ("points".data)) :
    ∃ lv, calculate cfg d a tf e = Except.ok lv ∧
      (d = ("LONG".data) → lv.tp1 ≤ lv.tp2 ∧ lv.tp2 ≤ lv.tp3) ∧
      (d = ("SHORT".data) → lv.tp3 ≤ lv.tp2 ∧ lv.tp2 ≤ lv.tp1) := by
  refine ⟨computeLevels d a tf e rule, calculate_eq_ok cfg d a tf e rule hrow, ?_, ?_⟩ <;>
    intro hd <;> subst hd <;>
    rcases hunit with hu | hu | hu <;>
    simp only [computeLevels, hu, calcPercentage, calcPips, calcPoints] <;>
    simp +decide <;>
    constructor <;>
    nlinarith [pipValueOf_pos a, pointValueOf_pos a, he, h12, h23]

/-- C4 witness: monotonicity instantiated at a concrete configuration,
LONG BTCUSD M5 at entry 65000. -/
theorem c4_witness :
    ruleRow cfgA ("BTCUSD".data) ("M5".data) = some ruleA ∧
    (0:ℚ) < 65000 ∧ ruleA.tp1 ≤ ruleA.tp2 ∧ ruleA.tp2 ≤ ruleA.tp3 ∧
    (∃ lv, calculate cfgA ("LONG".data) ("BTCUSD".data) ("M5".data) 65000 = Except.ok lv ∧
      (("LONG".data : Str) = ("LONG".data) → lv.tp1 ≤ lv.tp2 ∧ lv.tp2 ≤ lv.tp3) ∧
      (("LONG".data : Str) = ("SHORT".data) → lv.tp3 ≤ lv.tp2 ∧ lv.tp2 ≤ lv.tp1)) :=
  ⟨rfl, by norm_num, by norm_num [ruleA], by norm_num [ruleA],
   c4_monotonicity cfgA ("LONG".data) ("BTCUSD".data) ("M5".data) 65000 ruleA rfl
     (by norm_num) (by norm_num [ruleA]) (by norm_num [ruleA]) (Or.inl rfl) (Or.inl rfl)⟩

/-- C10: for every rule row whose unit field is absent or is any string
other than pips and points, calculate returns normally, applies the
percentage formula, and echoes the default percent sign when the unit is
absent or the stored string otherwise. -/
theorem c10_default_unit (cfg : Config) (d a tf : Str) (e : ℚ) (rule : LevelRule)
    (hrow : ruleRow cfg a tf = some rule)
    (hp : rule.unit ≠ some ("pips".data))
    (hq : rule.unit ≠ some ("points".data)) :
    ∃ lv, calculate cfg d a tf e = Except.ok lv ∧
      lv.unit = rule.unit.getD ("%".data) ∧
      (rule.unit = none → lv.unit = ("%".data)) ∧
      (lv.tp1, lv.tp2, lv.tp3, lv.sl) =
        calcPercentage d e rule.tp1 rule.tp2 rule.tp3 rule.sl := by
  have hcp : rule.unit.getD ("%".data) ≠ ("pips".data) := by
    cases hru : rule.unit with
    | none => simp only [Option.getD]; decide
    | some u =>
      simp only [Option.getD]
      intro hitis
      exact hp (by rw [hru, hitis])
  have hcq : rule.unit.getD ("%".data) ≠ ("points".data) := by
    cases hru : rule.unit with
    | none => simp only [Option.getD]; decide
    | some u =>
      simp only [Option.getD]
      intro hitis
      exact hq (by rw [hru, hitis])
  refine ⟨computeLevels d a tf e rule, calculate_eq_ok cfg d a tf e rule hrow, rfl, ?_, ?_⟩
  · intro h
    simp [computeLevels, h]
  · simp only [computeLevels]
    rw [if_neg hcp, if_neg hcq]

/-- C10 witness: the default-unit behaviour instantiated on a rule row with
no unit field, SHORT BTCUSD M5 at entry 100. -/
theorem c10_witness :
    ruleRow cfgA ("BTCUSD".data) ("M5".data) = some ruleA ∧
    ruleA.unit ≠ some ("pips".data) ∧ ruleA.unit ≠ some ("points".data) ∧
    (∃ lv, calculate cfgA ("SHORT".data) ("BTCUSD".data) ("M5".data) 100 = Except.ok lv ∧
      lv.unit = ruleA.unit.getD ("%".data) ∧
      (ruleA.unit = none → lv.unit = ("%".data)) ∧
      (lv.tp1, lv.tp2, lv.tp3, lv.sl) =
        calcPercentage ("SHORT".data) 100 ruleA.tp1 ruleA.tp2 ruleA.tp3 ruleA.sl) :=
  ⟨rfl, by decide, by decide,
   c10_default_unit cfgA ("SHORT".data) ("BTCUSD".data) ("M5".data) 100 ruleA rfl
     (by decide) (by decide)⟩

/-- C2 counterexample: at a concrete configuration whose BTCUSD asset has no
M99 row, calculate fails by raising KeyError, an exception that unwinds to the
caller; it does not return an UnknownRule error value as the claim states. -/
theorem c2_counterexample :
    ruleRow cfgA ("BTCUSD".data) ("M99".data) = none ∧
    calculate cfgA ("LONG".data) ("BTCUSD".data) ("M99".data) 100 =
      Except.error (PyExn.keyError ("M99".data)) :=
  ⟨by decide, by decide⟩

/-- C2 amended: for every (asset, timeframe) pair absent from the rule table,
calculate fails by raising a Python exception that propagates to the caller;
no error value is returned by the calculator. -/
theorem c2_amended_raises (cfg : Config) (d a tf : Str) (e : ℚ)
    (h : ruleRow cfg a tf = none) :
    ∃ exn, calculate cfg d a tf e = Except.error exn := by
  unfold ruleRow at h
  unfold calculate
  cases hfind : (cfg.assets.find? (fun p => p.1 = a)).map (fun p => p.2) with
  | none => exact ⟨.keyError a, by simp only [hfind]⟩
  | some adata =>
    simp only [hfind] at h
    by_cases hal : adata.aliases.isSome ∧ tf = "aliases".data
    · exact ⟨.attributeError, by simp only [if_pos hal]⟩
    · simp only [if_neg hal] at h
      cases hrow : (adata.tfRules.find? (fun p => p.1 = tf)).map (fun p => p.2) with
      | none => exact ⟨.keyError tf, by simp only [if_neg hal, hrow]⟩
      | some r =>
        rw [hrow] at h
        exact Option.noConfusion h

/-- C2 amended witness: the amended statement instantiated at a concrete
configuration and a missing timeframe M42. -/
theorem c2_amended_witness :
    ruleRow cfgA ("BTCUSD".data) ("M42".data) = none ∧
    (∃ exn, calculate cfgA ("LONG".data) ("BTCUSD".data) ("M42".data) 100 =
      Except.error exn) :=
  ⟨by decide, c2_amended_raises cfgA ("LONG".data) ("BTCUSD".data) ("M42".data) 100 (by decide)⟩

/-- C1 witness: the sign convention instantiated at a concrete configuration,
LONG BTCUSD M5 at entry 65000. -/
theorem c1_witness :
    ruleRow cfgA ("BTCUSD".data) ("M5".data) = some ruleA ∧
    (∃ lv, calculate cfgA ("LONG".data) ("BTCUSD".data) ("M5".data) 65000 = Except.ok lv ∧
      (("LONG".data : Str) = ("LONG".data) →
        lv.tp1 = 65000 + specDelta (ruleA.unit.getD ("%".data)) ("BTCUSD".data) 65000 ruleA.tp1 ∧
        lv.tp2 = 65000 + specDelta (ruleA.unit.getD ("%".data)) ("BTCUSD".data) 65000 ruleA.tp2 ∧
        lv.tp3 = 65000 + specDelta (ruleA.unit.getD ("%".data)) ("BTCUSD".data) 65000 ruleA.tp3 ∧
        lv.sl = 65000 - specDelta (ruleA.unit.getD ("%".data)) ("BTCUSD".data) 65000 ruleA.sl) ∧
      (("LONG".data : Str) = ("SHORT".data) →
        lv.tp1 = 65000 - specDelta (ruleA.unit.getD ("%".data)) ("BTCUSD".data) 65000 ruleA.tp1 ∧
        lv.tp2 = 65000 - specDelta (ruleA.unit.getD ("%".data)) ("BTCUSD".data) 65000 ruleA.tp2 ∧
        lv.tp3 = 65000 - specDelta (ruleA.unit.getD ("%".data)) ("BTCUSD".data) 65000 ruleA.tp3 ∧
        lv.sl = 65000 + specDelta (ruleA.unit.getD ("%".data)) ("BTCUSD".data) 65000 ruleA.sl)) :=
  ⟨rfl, c1_sign_convention cfgA ("LONG".data) ("BTCUSD".data) ("M5".data) 65000 ruleA rfl
    (Or.inl rfl) (Or.inl rfl)⟩

end TradingBot

namespace TradingBot

lemma findSome?_none {α β : Type} (f : α → Option β) :
    ∀ l : List α, (∀ x ∈ l, f x = none) → l.findSome? f = none
  | [], _ => rfl
  | a :: l, h => by
    have ha := h a (List.mem_cons_self a l)
    simp only [List.findSome?, ha]
    exact findSome?_none f l (fun x hx => h x (List.mem_cons_of_mem a hx))

lemma findSome?_split {α β : Type} (f : α → Option β) (w : α) (b : β)
    (hw : f w = some b) :
    ∀ l1 : List α, (∀ u ∈ l1, f u = none) →
      ∀ l2 : List α, (l1 ++ w :: l2).findSome? f = some b
  | [], _, l2 => by simp only [List.nil_append, List.findSome?, hw]
  | a :: l1, h, l2 => by
    have ha := h a (List.mem_cons_self a l1)
    simp only [List.cons_append, List.findSome?, ha]
    exact findSome?_split f w b hw l1 (fun u hu => h u (List.mem_cons_of_mem a hu)) l2

/-- C9: direction extraction examines only the first three whitespace
tokens, cleaned by the direction filter, and returns the table value of the
first matching token; whenever none of the first three cleaned tokens is in
the direction table, parse fails with the no-direction error, even when a
later token would match. -/
theorem c9_direction_window (cfg : Config) (message : Str) :
    ((((splitWs (pyUpper (pyStrip message))).take 3).all
        (fun w => (dictGet (buildDirectionLookup cfg) (cleanDir w)).isNone)) = true →
      parse cfg message = .error .noDirection) ∧
    (∀ pre w rest d,
      (splitWs (pyUpper (pyStrip message))).take 3 = pre ++ w :: rest →
      (∀ u ∈ pre, dictGet (buildDirectionLookup cfg) (cleanDir u) = none) →
      dictGet (buildDirectionLookup cfg) (cleanDir w) = some d →
      extractDirection cfg (pyUpper (pyStrip message)) = some d) := by
  constructor
  · intro h
    have hex : extractDirection cfg (pyUpper (pyStrip message)) = none := by
      unfold extractDirection
      refine findSome?_none _ _ (fun w hw => ?_)
      have := List.all_eq_true.mp h w hw
      exact Option.isNone_iff_eq_none.mp this
    unfold parse
    simp only [hex]
  · intro pre w rest d hsplit hpre hw
    unfold extractDirection
    rw [hsplit]
    exact findSome?_split _ w d hw pre hpre rest

/-- C9 witness: a message whose first three tokens match nothing fails with
the no-direction error although LONG appears as the fourth token, and a
message led by BUY resolves to LONG. -/
theorem c9_witness :
    ((((splitWs (pyUpper (pyStrip ("A1 B2 C3 LONG BTCUSD M5".data)))).take 3).all
        (fun w => (dictGet (buildDirectionLookup cfgA) (cleanDir w)).isNone)) = true) ∧
    parse cfgA ("A1 B2 C3 LONG BTCUSD M5".data) = .error .noDirection ∧
    extractDirection cfgA (pyUpper (pyStrip ("BUY BTC M5".data))) = some ("LONG".data) :=
  ⟨by decide, (c9_direction_window cfgA ("A1 B2 C3 LONG BTCUSD M5".data)).1 (by decide),
   (c9_direction_window cfgA ("BUY BTC M5".data)).2 [] ("BUY".data)
     [("BTC".data), ("M5".data)] ("LONG".data) (by decide)
     (fun u hu => absurd hu (List.not_mem_nil u)) (by decide)⟩

/-- C6: for every input whose direction and asset resolve and whose timeframe
token resolves to a canonical timeframe that is not configured for that asset,
parse fails with the unsupported-timeframe error carrying the timeframe, the
asset and the timeframes the asset does support, and the rendered message
names the asset and enumerates those timeframes. -/
theorem c6_unsupported_timeframe (cfg : Config) (message : Str) (d a tf : Str)
    (adata : AssetData)
    (hd : extractDirection cfg (pyUpper (pyStrip message)) = some d) (hd0 : d ≠ [])
    (ha : extractAsset cfg (pyUpper (pyStrip message)) = some a) (ha0 : a ≠ [])
    (htf : extractTimeframe cfg (pyUpper (pyStrip message)) = some tf) (htf0 : tf ≠ [])
    (hdata : assetDataOf cfg a = some adata)
    (hnk : assetHasKey adata tf = false) :
    parse cfg message = .error (.unsupportedTimeframe tf a (availableTfs adata)) ∧
    errorMessage cfg (.unsupportedTimeframe tf a (availableTfs adata)) =
      "❌ TF ".data ++ tf ++ " not configured for ".data ++ a ++
        ". Available: ".data ++ joinCommaSpace (availableTfs adata) := by
  refine ⟨?_, rfl⟩
  unfold parse
  simp only [hd, ha, htf, hdata, Option.getD_some]
  rw [if_neg hd0, if_neg ha0, if_neg htf0, if_neg (by simp [hnk])]

/-- C6 witness: the unsupported-timeframe failure instantiated on
LONG BTCUSD M15 against a configuration where BTCUSD only configures M5. -/
theorem c6_witness :
    extractDirection cfgA (pyUpper (pyStrip ("LONG BTCUSD M15".data))) = some ("LONG".data) ∧
    extractAsset cfgA (pyUpper (pyStrip ("LONG BTCUSD M15".data))) = some ("BTCUSD".data) ∧
    extractTimeframe cfgA (pyUpper (pyStrip ("LONG BTCUSD M15".data))) = some ("M15".data) ∧
    assetDataOf cfgA ("BTCUSD".data) = some dataBTC ∧
    assetHasKey dataBTC ("M15".data) = false ∧
    parse cfgA ("LONG BTCUSD M15".data) =
      .error (.unsupportedTimeframe ("M15".data) ("BTCUSD".data) (availableTfs dataBTC)) ∧
    errorMessage cfgA (.unsupportedTimeframe ("M15".data) ("BTCUSD".data) (availableTfs dataBTC)) =
      "❌ TF ".data ++ ("M15".data) ++ " not configured for ".data ++ ("BTCUSD".data) ++
        ". Available: ".data ++ joinCommaSpace (availableTfs dataBTC) :=
  ⟨by decide, by decide, by decide, rfl, by decide,
   (c6_unsupported_timeframe cfgA ("LONG BTCUSD M15".data) ("LONG".data) ("BTCUSD".data)
     ("M15".data) dataBTC (by decide) (by decide) (by decide) (by decide) (by decide)
     (by decide) rfl (by decide)).1,
   (c6_unsupported_timeframe cfgA ("LONG BTCUSD M15".data) ("LONG".data) ("BTCUSD".data)
     ("M15".data) dataBTC (by decide) (by decide) (by decide) (by decide) (by decide)
     (by decide) rfl (by decide)).2⟩

/-- C8: for every input whose direction, asset and timeframe resolve and
validate, and whose price marker literal fails to parse as a number, parse
succeeds and returns a signal with the entry price absent; the malformed
price never causes an error. -/
theorem c8_malformed_price (cfg : Config) (message : Str) (d a tf : Str)
    (adata : AssetData) (lit : Str)
    (hd : extractDirection cfg (pyUpper (pyStrip message)) = some d) (hd0 : d ≠ [])
    (ha : extractAsset cfg (pyUpper (pyStrip message)) = some a) (ha0 : a ≠ [])
    (htf : extractTimeframe cfg (pyUpper (pyStrip message)) = some tf) (htf0 : tf ≠ [])
    (hdata : assetDataOf cfg a = some adata)
    (hk : assetHasKey adata tf = true)
    (hlit : findPriceLiteral (pyUpper (pyStrip message)) = some lit)
    (hbad : pyFloat lit = none) :
    parse cfg message = .ok { direction := d, asset := a, timeframe := tf,
                              originalMessage := message, entryPrice := none } := by
  unfold parse
  simp only [hd, ha, htf, hdata, Option.getD_some]
  rw [if_neg hd0, if_neg ha0, if_neg htf0, if_pos (by simp [hk])]
  unfold extractPrice
  simp only [hlit]
  rw [hbad]

/-- C8 witness: LONG BTCUSD M5 with the malformed price literal 1.2.3 parses
successfully with no entry price. -/
theorem c8_witness :
    findPriceLiteral (pyUpper (pyStrip ("LONG BTCUSD M5 @1.2.3".data))) = some ("1.2.3".data) ∧
    pyFloat ("1.2.3".data) = none ∧
    parse cfgA ("LONG BTCUSD M5 @1.2.3".data) =
      .ok { direction := ("LONG".data), asset := ("BTCUSD".data), timeframe := ("M5".data),
            originalMessage := ("LONG BTCUSD M5 @1.2.3".data), entryPrice := none } :=
  ⟨by decide, by decide,
   c8_malformed_price cfgA ("LONG BTCUSD M5 @1.2.3".data) ("LONG".data) ("BTCUSD".data)
     ("M5".data) dataBTC ("1.2.3".data) (by decide) (by decide) (by decide) (by decide)
     (by decide) (by decide) rfl (by decide) (by decide) (by decide)⟩

end TradingBot

namespace TradingBot

lemma find_map_overwrite_hit (k v : Str) :
    ∀ d : PyDict, d.any (fun p => p.1 = k) = true →
      dictGet (d.map (fun p => if p.1 = k then (k, v) else p)) k = some v := by
  intro d
  induction d with
  | nil => intro h; simp at h
  | cons p d ih =>
    intro h
    by_cases hp : p.1 = k
    · simp only [List.map_cons, if_pos hp, dictGet]
      rw [List.find?_cons_of_pos _ (by simp)]
      rfl
    · have hm : d.any (fun p => p.1 = k) = true := by
        simp only [List.any_cons] at h
        rcases Bool.or_eq_true_iff.mp h with h1 | h1
        · exact absurd (of_decide_eq_true h1) hp
        · exact h1
      simp only [List.map_cons, if_neg hp, dictGet]
      rw [List.find?_cons_of_neg _ (by simpa using hp)]
      exact ih hm

lemma find_map_overwrite_miss (k v k2 : Str) (hne : k2 ≠ k) :
    ∀ d : PyDict,
      dictGet (d.map (fun p => if p.1 = k then (k, v) else p)) k2 = dictGet d k2 := by
  intro d
  induction d with
  | nil => rfl
  | cons p d ih =>
    by_cases hp : p.1 = k
    · simp only [List.map_cons, if_pos hp, dictGet]
      rw [List.find?_cons_of_neg _ (by simpa using Ne.symm (hne))]
      rw [List.find?_cons_of_neg _ (by simp [hp]; exact fun he => hne (he ▸ hp ▸ rfl))]
      exact ih
    · simp only [List.map_cons, if_neg hp, dictGet]
      by_cases hp2 : p.1 = k2
      · rw [List.find?_cons_of_pos _ (by simpa using hp2),
          List.find?_cons_of_pos _ (by simpa using hp2)]
      · rw [List.find?_cons_of_neg _ (by simpa using hp2),
          List.find?_cons_of_neg _ (by simpa using hp2)]
        exact ih

lemma dictGet_append_single (k v k2 : Str) :
    ∀ d : PyDict, d.any (fun p => p.1 = k2) = false →
      dictGet (d ++ [(k, v)]) k2 = if k2 = k then some v else none := by
  intro d
  induction d with
  | nil =>
    intro _
    by_cases h : k2 = k
    · simp only [List.nil_append, dictGet]
      rw [List.find?_cons_of_pos _ (by simpa using h.symm)]
      simp [h]
    · simp only [List.nil_append, dictGet]
      rw [List.find?_cons_of_neg _ (by simpa using fun he => h he.symm)]
      simp [h]
  | cons p d ih =>
    intro hany
    simp only [List.any_cons, Bool.or_eq_false_iff] at hany
    have hp : ¬(p.1 = k2) := by simpa using hany.1
    simp only [List.cons_append, dictGet]
    rw [List.find?_cons_of_neg _ (by simpa using hp)]
    exact ih (by simpa using hany.2)

lemma dictGet_of_any_false (k2 : Str) :
    ∀ d : PyDict, d.any (fun p => p.1 = k2) = false → dictGet d k2 = none := by
  intro d
  induction d with
  | nil => intro _; rfl
  | cons p d ih =>
    intro hany
    simp only [List.any_cons, Bool.or_eq_false_iff] at hany
    simp only [dictGet]
    rw [List.find?_cons_of_neg _ (by simpa using hany.1)]
    exact ih (by simpa using hany.2)

lemma dictGet_dictSet (d : PyDict) (k v k2 : Str) :
    dictGet (dictSet d k v) k2 = if k2 = k then some v else dictGet d k2 := by
  unfold dictSet
  by_cases hmem : d.any (fun p => p.1 = k) = true
  · rw [if_pos hmem]
    by_cases hk : k2 = k
    · rw [if_pos hk, hk]
      exact find_map_overwrite_hit k v d hmem
    · rw [if_neg hk]
      exact find_map_overwrite_miss k v k2 hk d
  · rw [if_neg hmem]
    by_cases hk : k2 = k
    · rw [if_pos hk]
      rw [dictGet_append_single k v k2 d (by rw [hk]; exact Bool.eq_false_iff.mpr hmem)]
      simp [hk]
    · rw [if_neg hk]
      by_cases hmem2 : d.any (fun p => p.1 = k2) = true
      · -- k2 present in d: find? stays within d
        clear hmem
        induction d with
        | nil => simp at hmem2
        | cons p d ih =>
          simp only [List.any_cons] at hmem2
          by_cases hp : p.1 = k2
          · simp only [List.cons_append, dictGet]
            rw [List.find?_cons_of_pos _ (by simpa using hp),
              List.find?_cons_of_pos _ (by simpa using hp)]
          · simp only [List.cons_append, dictGet]
            rw [List.find?_cons_of_neg _ (by simpa using hp),
              List.find?_cons_of_neg _ (by simpa using hp)]
            rcases Bool.or_eq_true_iff.mp hmem2 with h1 | h1
            · exact absurd (of_decide_eq_true h1) hp
            · exact ih h1
      · have hf := Bool.eq_false_iff.mpr hmem2
        rw [dictGet_append_single k v k2 d hf, if_neg hk,
          dictGet_of_any_false k2 d hf]

end TradingBot

namespace TradingBot

lemma dictGet_foldSet (v : Str) (tok : Str) :
    ∀ (als : List Str) (d : PyDict),
      dictGet (als.foldl (fun d2 al => dictSet d2 (pyUpper al) v) d) tok =
        if als.any (fun al => pyUpper al = tok) = true then some v else dictGet d tok := by
  intro als
  induction als with
  | nil => intro d; simp
  | cons a als ih =>
    intro d
    simp only [List.foldl_cons, List.any_cons]
    rw [ih (dictSet d (pyUpper a) v), dictGet_dictSet]
    by_cases h1 : als.any (fun al => pyUpper al = tok) = true
    · rw [if_pos h1, if_pos (by simp [h1])]
    · rw [if_neg h1]
      by_cases h2 : pyUpper a = tok
      · rw [if_pos h2.symm, if_pos (by simp [h2])]
      · rw [if_neg (fun he => h2 he.symm), if_neg (by simp [h1, h2])]

lemma registerAsset_get (d : PyDict) (p : Str × AssetData) (tok : Str) :
    dictGet (registerAsset d p) tok =
      if assetRegisters p tok = true then some p.1 else dictGet d tok := by
  unfold registerAsset assetRegisters
  cases hals : p.2.aliases with
  | none =>
    rw [dictGet_dictSet]
    by_cases h : pyUpper p.1 = tok
    · rw [if_pos h.symm, if_pos (by simp [h])]
    · rw [if_neg (fun he => h he.symm), if_neg (by simp [h])]
  | some als =>
    rw [dictGet_foldSet, dictGet_dictSet]
    by_cases h1 : als.any (fun al => pyUpper al = tok) = true
    · rw [if_pos h1, if_pos (by simp [h1])]
    · rw [if_neg h1]
      by_cases h2 : pyUpper p.1 = tok
      · rw [if_pos h2.symm, if_pos (by simp [h2])]
      · rw [if_neg (fun he => h2 he.symm), if_neg (by simp [h1, h2])]

lemma fold_no_register (tok : Str) :
    ∀ (l : List (Str × AssetData)) (d : PyDict),
      (∀ q ∈ l, assetRegisters q tok = false) →
      dictGet (l.foldl registerAsset d) tok = dictGet d tok := by
  intro l
  induction l with
  | nil => intro d _; rfl
  | cons p l ih =>
    intro d h
    simp only [List.foldl_cons]
    rw [ih (registerAsset d p) (fun q hq => h q (List.mem_cons_of_mem p hq)),
      registerAsset_get,
      if_neg (by rw [h p (List.mem_cons_self p l)]; simp)]

/-- C5 amended: the loader never rejects a configuration; building the asset
lookup table gives, for any token registered by some asset entry and by no
later entry, the canonical name of that entry, so a duplicated alias silently
resolves to the asset registered last, and negative distances and unknown unit
strings flow through to calculation time. -/
theorem c5_amended_last_wins (cfg : Config) (pre post : List (Str × AssetData))
    (x : Str × AssetData) (tok : Str)
    (hsplit : cfg.assets = pre ++ x :: post)
    (hreg : assetRegisters x tok = true)
    (hpost : ∀ q ∈ post, assetRegisters q tok = false) :
    dictGet (buildAssetLookup cfg) tok = some x.1 := by
  unfold buildAssetLookup
  rw [hsplit, List.foldl_append, List.foldl_cons,
    fold_no_register tok post (registerAsset (List.foldl registerAsset [] pre) x) hpost,
    registerAsset_get, if_pos hreg]

/-- C5 counterexample: a concrete configuration that reuses the alias BTC
across two assets, has a negative stop distance and an unrecognized unit
string, is nevertheless accepted: the lookup tables are built, the duplicate
alias silently resolves to the asset registered last, and calculate runs on
the invalid row and returns normally. No ConfigError exists in the code and no
validation happens at load time. -/
theorem c5_counterexample :
    hasDuplicateAssetAlias cfg5bad = true ∧
    hasNegativeDistance cfg5bad = true ∧
    hasUnknownUnit cfg5bad = true ∧
    dictGet (buildAssetLookup cfg5bad) ("BTC".data) = some ("BTCTEST".data) ∧
    calculate cfg5bad ("LONG".data) ("BTCTEST".data) ("M5".data) 100 =
      Except.ok (computeLevels ("LONG".data) ("BTCTEST".data) ("M5".data) 100 rule5b) :=
  ⟨by decide, by decide, by decide, by decide, rfl⟩

/-- C5 amended witness: last registration wins instantiated on the concrete
duplicate-alias configuration. -/
theorem c5_amended_witness :
    cfg5bad.assets =
      [(("BTCUSD".data), { aliases := some [("BTC".data)],
                           tfRules := [(("M5".data), rule5a)] })] ++
        (("BTCTEST".data), { aliases := some [("BTC".data)],
                             tfRules := [(("M5".data), rule5b)] }) :: [] ∧
    assetRegisters (("BTCTEST".data), { aliases := some [("BTC".data)],
                                        tfRules := [(("M5".data), rule5b)] })
      ("BTC".data) = true ∧
    dictGet (buildAssetLookup cfg5bad) ("BTC".data) = some ("BTCTEST".data) :=
  ⟨rfl, by decide,
   c5_amended_last_wins cfg5bad
     [(("BTCUSD".data), { aliases := some [("BTC".data)],
                          tfRules := [(("M5".data), rule5a)] })] []
     (("BTCTEST".data), { aliases := some [("BTC".data)],
                          tfRules := [(("M5".data), rule5b)] })
     ("BTC".data) rfl (by decide) (fun q hq => absurd hq (List.not_mem_nil q))⟩

end TradingBot

namespace TradingBot

lemma mem_insertByLen (x y : Str) :
    ∀ l : List Str, y ∈ insertByLen x l ↔ y = x ∨ y ∈ l := by
  intro l
  induction l with
  | nil => simp [insertByLen]
  | cons z l ih =>
    simp only [insertByLen]
    by_cases hc : z.length ≤ x.length
    · rw [if_pos hc]
      simp [List.mem_cons]
    · rw [if_neg hc]
      simp only [List.mem_cons, ih]
      tauto

lemma pairwise_insertByLen (x : Str) :
    ∀ l : List Str, l.Pairwise (fun a b => b.length ≤ a.length) →
      (insertByLen x l).Pairwise (fun a b => b.length ≤ a.length) := by
  intro l
  induction l with
  | nil => intro _; simp [insertByLen]
  | cons y ys ih =>
    intro h
    rcases List.pairwise_cons.mp h with ⟨hy, hys⟩
    simp only [insertByLen]
    by_cases hc : y.length ≤ x.length
    · rw [if_pos hc]
      refine List.pairwise_cons.mpr ⟨?_, h⟩
      intro z hz
      rcases List.mem_cons.mp hz with rfl | hz
      · exact hc
      · exact le_trans (hy z hz) hc
    · rw [if_neg hc]
      refine List.pairwise_cons.mpr ⟨?_, ih hys⟩
      intro z hz
      rcases (mem_insertByLen x z ys).mp hz with rfl | hz
      · exact le_of_not_le hc
      · exact hy z hz

lemma pairwise_sortByLenDesc (l : List Str) :
    (sortByLenDesc l).Pairwise (fun a b => b.length ≤ a.length) := by
  induction l with
  | nil => exact List.Pairwise.nil
  | cons x l ih => exact pairwise_insertByLen x (sortByLenDesc l) ih

lemma mem_sortByLenDesc (y : Str) :
    ∀ l : List Str, y ∈ sortByLenDesc l ↔ y ∈ l := by
  intro l
  induction l with
  | nil => simp [sortByLenDesc]
  | cons x l ih =>
    simp only [sortByLenDesc, List.foldr_cons] at ih ⊢
    rw [mem_insertByLen]
    simp only [List.mem_cons]
    rw [ih]

lemma findSome?_dominant {r : Str → Str → Prop} (f : Str → Option Str) (al0 b : Str)
    (hval : f al0 = some b) :
    ∀ l : List Str, l.Pairwise r → al0 ∈ l →
      (∀ K ∈ l, K ≠ al0 → r K al0 → f K = none) →
      l.findSome? f = some b := by
  intro l
  induction l with
  | nil => intro _ hmem; exact absurd hmem (List.not_mem_nil al0)
  | cons K t ih =>
    intro hpw hmem hdom
    rcases List.pairwise_cons.mp hpw with ⟨hKt, hpt⟩
    by_cases hKa : K = al0
    · subst hKa
      simp only [List.findSome?, hval]
    · have hmem2 : al0 ∈ t := by
        rcases List.mem_cons.mp hmem with h | h
        · exact absurd h.symm hKa
        · exact h
      have hfK : f K = none :=
        hdom K (List.mem_cons_self K t) hKa (hKt al0 hmem2)
      simp only [List.findSome?, hfK]
      exact ih hpt hmem2 (fun K2 hK2 => hdom K2 (List.mem_cons_of_mem K hK2))

lemma dictGet_mem_keys (d : PyDict) (k v : Str) (h : dictGet d k = some v) :
    k ∈ dictKeys d := by
  unfold dictGet at h
  cases hf : d.find? (fun p => p.1 = k) with
  | none => rw [hf] at h; exact Option.noConfusion h
  | some p =>
    have hp := List.find?_some hf
    have hmem := List.mem_of_find?_eq_some hf
    have : p.1 = k := of_decide_eq_true hp
    rw [← this]
    exact List.mem_map_of_mem (fun q => q.1) hmem

/-- C7 amended: in the substring fallback, aliases are scanned longest first,
so whenever the message tokens have no exact match, a known alias occurs as a
substring of the message and no other alias of the same or greater length
occurs as a substring, asset extraction resolves the owner of that alias; in
particular an alias that is a proper substring of a longer alias never masks
the longer match. -/
theorem c7_amended_longest_alias (cfg : Config) (message : Str) (al0 owner : Str)
    (hnotok : ∀ w ∈ splitWs (message.map (fun c => if c = '@' then ' ' else c)),
        dictGet (buildAssetLookup cfg) (cleanWord w) = none)
    (hlook : dictGet (buildAssetLookup cfg) al0 = some owner)
    (hsub : containsSub al0 message = true)
    (hmax : ∀ K ∈ dictKeys (buildAssetLookup cfg), K ≠ al0 →
        al0.length ≤ K.length → containsSub K message = false) :
    extractAsset cfg message = some owner := by
  unfold extractAsset
  have h1 : (splitWs (message.map (fun c => if c = '@' then ' ' else c))).findSome?
      (fun w => dictGet (buildAssetLookup cfg) (cleanWord w)) = none :=
    findSome?_none _ _ hnotok
  simp only [h1]
  refine findSome?_dominant _ al0 owner ?_ _ (pairwise_sortByLenDesc _) ?_ ?_
  · rw [if_pos hsub]
    exact hlook
  · exact (mem_sortByLenDesc al0 _).mpr (dictGet_mem_keys _ _ _ hlook)
  · intro K hK hKa hlen
    rw [if_neg ?_]
    rw [hmax K ((mem_sortByLenDesc K _).mp hK) hKa hlen]
    simp

/-- C7 counterexample: in a configuration holding the alias pair AB and ABC,
one a proper substring of the other, plus an unrelated longer alias QQQQ, the
message ZZABCQQQQZZ has no exact token match and contains ABC as a substring,
yet asset extraction resolves the owner of QQQQ, not the owner of ABC; so the
claim fails as universally stated. -/
theorem c7_counterexample :
    dictGet (buildAssetLookup cfg7) ("AB".data) = some ("X".data) ∧
    dictGet (buildAssetLookup cfg7) ("ABC".data) = some ("Y".data) ∧
    containsSub ("AB".data) ("ABC".data) = true ∧
    ("AB".data : Str) ≠ ("ABC".data) ∧
    ((splitWs (("ZZABCQQQQZZ".data : Str).map (fun c => if c = '@' then ' ' else c))).all
      (fun w => (dictGet (buildAssetLookup cfg7) (cleanWord w)).isNone) = true) ∧
    containsSub ("ABC".data) ("ZZABCQQQQZZ".data) = true ∧
    extractAsset cfg7 ("ZZABCQQQQZZ".data) = some ("Z".data) ∧
    (("Z".data : Str) ≠ ("Y".data)) := by
  refine ⟨by decide, by decide, by decide, by decide, by decide, by decide, by decide, by decide⟩

/-- C7 amended witness: the message XXGOLDENXX, where GOLD is a proper
substring of GOLDEN and only GOLDEN occurs among the longest substrings,
resolves to the asset owning GOLDEN. -/
theorem c7_witness :
    (∀ w ∈ splitWs (("XXGOLDENXX".data : Str).map (fun c => if c = '@' then ' ' else c)),
        dictGet (buildAssetLookup cfgGold) (cleanWord w) = none) ∧
    dictGet (buildAssetLookup cfgGold) ("GOLDEN".data) = some ("GOLDCOIN".data) ∧
    containsSub ("GOLDEN".data) ("XXGOLDENXX".data) = true ∧
    extractAsset cfgGold ("XXGOLDENXX".data) = some ("GOLDCOIN".data) :=
  ⟨by decide, by decide, by decide,
   c7_amended_longest_alias cfgGold ("XXGOLDENXX".data) ("GOLDEN".data) ("GOLDCOIN".data)
     (by decide) (by decide) (by decide) (by decide)⟩

end TradingBot
